import Mathlib

/-!
Verification of the Memory Scramble `Board` abstract data type
(`src/lab3/src/board.ts`).

The board is embedded shallowly: the mutable TypeScript class becomes a
`Board` record threaded explicitly through the operations.  The cooperative
single-threaded runtime is modelled by making each synchronous section of a
public operation one atomic Lean function; the two suspension points
(a first-card flip waiting on a controlled card, and `map`'s transforms in
flight) are modelled by an explicit `pendingResumes` work list: a
`Deferred.resolve()` call moves the woken waiter from its per-cell FIFO queue
into `pendingResumes`, and the code that runs when the awaiting task is
scheduled again is the separate function `resumeFlipFn`.

`assert` failures raised by `checkRep` abort the current operation (the
exception propagates to the caller) but, as in JavaScript, leave all
mutations made so far in place; operations therefore return both an outcome
and the resulting state.
-/

namespace MemoryBoard

/-- One cell of the grid (`type Cell` in board.ts): a card value or `null`,
a face-up flag, and the controlling player id or `null`. -/
structure Cell where
  value : Option String
  faceUp : Bool
  controlledBy : Option String
deriving Repr, DecidableEq

/-- A grid position, as the (possibly out-of-range) numbers handed to the
public API. -/
structure Pos where
  row : Int
  col : Int
deriving Repr, DecidableEq

/-- Per-player turn state (`type Player` in board.ts). -/
structure Player where
  id : String
  firstCard : Option Pos
  secondCard : Option Pos
  hasMatched : Bool
deriving Repr, DecidableEq

/-- The default record `{ id: playerId, hasMatched: false }` that
`getPlayer` creates on first reference. -/
def Player.init (pid : String) : Player :=
  { id := pid, firstCard := none, secondCard := none, hasMatched := false }

/-- The whole board state.  `players` is total (absent ids map to the
lazily-created default record); `playerIds` records which ids have actually
been created, in insertion order, because `checkRep` iterates over the
player map.  `waiters` is the per-cell FIFO queue of suspended first-card
flips (each token identified by the waiting player's id).  `pendingResumes`
holds waiters whose `Deferred` has been resolved but whose continuation has
not run yet.  `callbacks` counts the one-shot `watch` listeners. -/
structure Board where
  rows : Nat
  cols : Nat
  grid : List (List Cell)
  playerIds : List String
  players : String → Player
  waiters : Pos → List String
  pendingResumes : List (String × Pos)
  callbacks : Nat

/-- Errors thrown by the board operations, one constructor per distinct
`throw` site reachable from `flip` (messages in board.ts are noted). -/
inductive FlipError where
  /-- `No card at position (r, c)` (rules 1-A and 2-A). -/
  | noCardHere (row col : Int)
  /-- `Card at position (r, c) is already controlled by a player` (rule 2-B). -/
  | cardControlled (row col : Int)
  /-- `The card at position (r, c) is no longer available`
  (a resumed waiter finds the card removed, rule 1-D). -/
  | cardGone (row col : Int)
  /-- an `assert` inside `checkRep` failed. -/
  | repViolation
  /-- `Invalid card positions stored for player` (finishPreviousTurn). -/
  | invalidStoredPositions
  /-- `First card already flipped` (flipFirst entry guard). -/
  | firstAlreadyFlipped
  /-- `The player has not flipped a first card or has already flipped a
  second card` (flipSecond entry guard). -/
  | badSecondState
  /-- `Invalid first card position stored for player` (flipSecond). -/
  | invalidFirstStored
deriving Repr, DecidableEq

/-- Outcome of one synchronous section of `flip`: normal return, a thrown
error, or suspension on a waiter queue. -/
inductive FlipOutcome where
  | ok
  | suspended
  | err (e : FlipError)
deriving Repr, DecidableEq

/-- Which arm of `flip` ran: the `finishPreviousTurn` pre-step threw, or the
first-card helper, or the second-card helper. -/
inductive FlipPath where
  | prestep
  | first
  | second
deriving Repr, DecidableEq

/-- Result of one synchronous section: outcome, the arm taken, the state
left behind, and how many `watch` listeners were fired. -/
structure FlipResult where
  outcome : FlipOutcome
  path : FlipPath
  board : Board
  fired : Nat

/-- List update at an index (no-op when out of range). -/
def listModify {α : Type} (n : Nat) (f : α → α) : List α → List α
  | [] => []
  | a :: t =>
    match n with
    | 0 => f a :: t
    | m + 1 => a :: listModify m f t

/-- `grid[row]?.[col]`: `undefined` (here `none`) for any out-of-range or
negative index, as in JavaScript. -/
def cellAt (s : Board) (row col : Int) : Option Cell :=
  if row < 0 ∨ col < 0 then none
  else match s.grid[row.toNat]? with
    | none => none
    | some r => r[col.toNat]?

/-- In-place update of the cell at `p` (no-op when `p` is out of range,
matching mutation through a reference that `grid[row]?.[col]` produced). -/
def modifyCell (s : Board) (p : Pos) (f : Cell → Cell) : Board :=
  if p.row < 0 ∨ p.col < 0 then s
  else { s with grid := listModify p.row.toNat (listModify p.col.toNat f) s.grid }

/-- Update one player's record. -/
def updatePlayer (pid : String) (f : Player → Player) (s : Board) : Board :=
  { s with players := fun q => if q = pid then f (s.players q) else s.players q }

/-- `getPlayer`: create the player record on first reference. -/
def ensurePlayer (pid : String) (s : Board) : Board :=
  if pid ∈ s.playerIds then s else { s with playerIds := s.playerIds ++ [pid] }

/-- The waiter queue at a position (`this.waiters.get(key) ?? []`). -/
def waitersAt (s : Board) (p : Pos) : List String := s.waiters p

/-- `this.waiters.set(key, q)` / `this.waiters.delete(key)` (deleting is
setting the queue to empty; the code only ever observes queues via `get`). -/
def setWaiters (s : Board) (p : Pos) (q : List String) : Board :=
  { s with waiters := fun x => if x = p then q else s.waiters x }

/-- Enqueue a suspended first-card flip at the tail of the cell's queue. -/
def enqueueWaiter (pid : String) (p : Pos) (s : Board) : Board :=
  setWaiters s p (waitersAt s p ++ [pid])

/-- Number of cells currently controlled by `pid`. -/
def countControlled (s : Board) (pid : String) : Nat :=
  (s.grid.map (fun row => (row.filter (fun c => c.controlledBy = some pid)).length)).sum

/-- One cell's share of the representation invariant checks. -/
def cellOkB (c : Cell) : Bool :=
  (match c.controlledBy with
   | some _ => c.faceUp && c.value.isSome
   | none => true) &&
  (match c.value with
   | none => !c.faceUp && c.controlledBy.isNone
   | some _ => true)

/-- Is an optional recorded card position in bounds (the per-player loop at
the end of `checkRep`)? -/
def posOk (s : Board) : Option Pos → Bool
  | none => true
  | some p =>
    decide (0 ≤ p.row) && decide (p.row < (s.rows : Int)) &&
    decide (0 ≤ p.col) && decide (p.col < (s.cols : Int))

/-- `checkRep` as a boolean: `true` iff none of its `assert`s would throw. -/
def checkRepB (s : Board) : Bool :=
  decide (0 < s.rows) && decide (0 < s.cols) && decide (s.grid.length = s.rows) &&
  s.grid.all (fun row => decide (row.length = s.cols)) &&
  s.grid.all (fun row => row.all cellOkB) &&
  s.playerIds.all (fun pid =>
    decide (countControlled s pid ≤ 2) &&
    posOk s (s.players pid).firstCard && posOk s (s.players pid).secondCard)

/-- `triggerBoardChange`: fire and discard every registered one-shot
listener; returns the new state and how many listeners fired. -/
def triggerFn (s : Board) : Board × Nat :=
  ({ s with callbacks := 0 }, s.callbacks)

/-- `watch(playerId)`: register a one-shot listener; nothing else changes. -/
def watchFn (s : Board) : Board :=
  { s with callbacks := s.callbacks + 1 }

/-- The line `look` prints for one cell. -/
def cellLine (pid : String) (c : Cell) : String :=
  match c.value with
  | none => "none"
  | some v =>
    if c.faceUp = false then "down"
    else if c.controlledBy = some pid then "my " ++ v
    else "up " ++ v

/-- `look(playerId)`: the `RxC` header then one line per cell, row-major,
accumulated exactly as the nested `for` loops do. -/
def look (pid : String) (s : Board) : String :=
  s.grid.foldl
    (fun acc row => row.foldl (fun acc2 c => acc2 ++ (cellLine pid c ++ "\n")) acc)
    (Nat.repr s.rows ++ "x" ++ Nat.repr s.cols ++ "\n")

/-- `getCell(row, col)`: `null` when out of bounds, otherwise a fresh copy
of the cell record. -/
def getCell (s : Board) (row col : Int) : Option Cell :=
  if row < 0 ∨ (s.rows : Int) ≤ row ∨ col < 0 ∨ (s.cols : Int) ≤ col ∨
      (cellAt s row col).isNone then none
  else (cellAt s row col).map
    (fun c => { value := c.value, faceUp := c.faceUp, controlledBy := c.controlledBy })

/-- `relinquishControl(cardPos, wakeAll)`: clear the cell's controller; with
`wakeAll` resolve every queued waiter (card removed), otherwise resolve just
the head of the queue.  Resolved waiters move to `pendingResumes`. -/
def relinquishControl (wakeAll : Bool) (p : Pos) (s : Board) : Board :=
  match cellAt s p.row p.col with
  | none => s
  | some _ =>
    let s1 := modifyCell s p (fun c => { c with controlledBy := none })
    let q := waitersAt s1 p
    if q = [] then s1
    else if wakeAll then
      { setWaiters s1 p [] with
        pendingResumes := s1.pendingResumes ++ q.map (fun w => (w, p)) }
    else
      match q with
      | [] => s1
      | w :: rest =>
        { setWaiters s1 p rest with pendingResumes := s1.pendingResumes ++ [(w, p)] }

/-- Rule 3-B helper: turn the card face down when it is still present,
face up, and uncontrolled. -/
def flipDownIfIdle (s : Board) (p : Pos) : Board :=
  match cellAt s p.row p.col with
  | none => s
  | some c =>
    if c.value ≠ none ∧ c.faceUp = true ∧ c.controlledBy = none then
      modifyCell s p (fun c2 => { c2 with faceUp := false })
    else s

/-- Clear a player's recorded turn. -/
def clearTurn (pid : String) (s : Board) : Board :=
  updatePlayer pid
    (fun pl => { pl with firstCard := none, secondCard := none, hasMatched := false }) s

/-- `finishPreviousTurn`: when both cards of the previous turn are recorded,
apply rule 3-A (remove a matched pair, waking all waiters on both cells) or
rule 3-B (turn unmatched uncontrolled cards face down), then clear the
recorded turn.  Throws when a stored position no longer resolves to a cell. -/
def finishPreviousTurn (pid : String) (s : Board) : Option FlipError × Board :=
  let player := s.players pid
  match player.firstCard, player.secondCard with
  | some fc, some sc =>
    match cellAt s fc.row fc.col, cellAt s sc.row sc.col with
    | some firstCell, some secondCell =>
      if player.hasMatched = true ∧ firstCell.value ≠ none ∧ secondCell.value ≠ none ∧
          firstCell.value = secondCell.value then
        let s1 := modifyCell s fc (fun c => { c with value := none, faceUp := false })
        let s2 := modifyCell s1 sc (fun c => { c with value := none, faceUp := false })
        let s3 := relinquishControl true fc s2
        let s4 := relinquishControl true sc s3
        (none, clearTurn pid s4)
      else
        let s1 := flipDownIfIdle s fc
        let s2 := flipDownIfIdle s1 sc
        (none, clearTurn pid s2)
    | _, _ => (some .invalidStoredPositions, s)
  | _, _ => (none, s)

/-- Turn the cell face up under `pid`'s control and record it as the
player's first card. -/
def takeControl (pid : String) (p : Pos) (s : Board) : Board :=
  let s1 := modifyCell s p (fun c => { c with faceUp := true, controlledBy := some pid })
  updatePlayer pid (fun pl => { pl with firstCard := some p }) s1

/-- `flipFirst` up to its suspension point: rule 1-A fails, 1-B/1-C take
control, 1-D enqueues a waiter token and suspends. -/
def flipFirstFn (pid : String) (row col : Int) (s : Board) : FlipOutcome × Board :=
  if (s.players pid).firstCard ≠ none then (.err .firstAlreadyFlipped, s)
  else
    match cellAt s row col with
    | none => (.err (.noCardHere row col), s)
    | some cell =>
      if cell.value = none then (.err (.noCardHere row col), s)
      else if cell.faceUp = false ∨ cell.controlledBy = none then
        (.ok, takeControl pid ⟨row, col⟩ s)
      else
        (.suspended, enqueueWaiter pid ⟨row, col⟩ s)

/-- The continuation of `flipFirst` after `await deferred.promise`: re-check
the cell; fail if the card is gone, otherwise take control of it. -/
def resumeFirstFn (pid : String) (row col : Int) (s : Board) : FlipOutcome × Board :=
  match cellAt s row col with
  | none => (.err (.cardGone row col), s)
  | some cell =>
    if cell.value = none then (.err (.cardGone row col), s)
    else (.ok, takeControl pid ⟨row, col⟩ s)

/-- `flipSecond`: rules 2-A through 2-E.  The 2-A and 2-B failure arms run
`checkRep` and `triggerBoardChange` themselves before throwing, so the
result carries the number of listeners fired. -/
def flipSecondFn (pid : String) (row col : Int) (s : Board) : FlipOutcome × Board × Nat :=
  let player := s.players pid
  match player.firstCard with
  | none => (.err .badSecondState, s, 0)
  | some fc =>
    if player.secondCard ≠ none then (.err .badSecondState, s, 0)
    else
      let noCard : Board → FlipOutcome × Board × Nat := fun st =>
        let s1 := relinquishControl false fc st
        let s2 := updatePlayer pid
          (fun pl => { pl with secondCard := some ⟨row, col⟩, hasMatched := false }) s1
        if checkRepB s2 then
          let t := triggerFn s2
          (.err (.noCardHere row col), t.1, t.2)
        else (.err .repViolation, s2, 0)
      match cellAt s row col with
      | none => noCard s
      | some cell =>
        if cell.value = none then noCard s
        else if cell.faceUp = true ∧ cell.controlledBy ≠ none then
          let s1 := relinquishControl false fc s
          let s2 := updatePlayer pid
            (fun pl => { pl with secondCard := some ⟨row, col⟩, hasMatched := false }) s1
          if checkRepB s2 then
            let t := triggerFn s2
            (.err (.cardControlled row col), t.1, t.2)
          else (.err .repViolation, s2, 0)
        else
          let s1 :=
            if cell.faceUp = false then
              modifyCell s ⟨row, col⟩ (fun c => { c with faceUp := true })
            else s
          let s2 := updatePlayer pid
            (fun pl => { pl with secondCard := some ⟨row, col⟩ }) s1
          match cellAt s2 fc.row fc.col with
          | none => (.err .invalidFirstStored, s2, 0)
          | some firstCell =>
            if firstCell.value = cell.value then
              let s3 := modifyCell s2 fc (fun c => { c with controlledBy := some pid })
              let s4 := modifyCell s3 ⟨row, col⟩
                (fun c => { c with controlledBy := some pid })
              (.ok, updatePlayer pid (fun pl => { pl with hasMatched := true }) s4, 0)
            else
              let s3 := relinquishControl false fc s2
              let s4 := relinquishControl false ⟨row, col⟩ s3
              (.ok, updatePlayer pid (fun pl => { pl with hasMatched := false }) s4, 0)

/-- The public `flip(playerId, row, col)` up to its return or suspension:
get-or-create the player, finish the previous turn, dispatch to the first-
or second-card helper, and on normal return run `checkRep` and fire the
change listeners. -/
def flipFn (pid : String) (row col : Int) (s0 : Board) : FlipResult :=
  let s := ensurePlayer pid s0
  match finishPreviousTurn pid s with
  | (some e, s1) => ⟨.err e, .prestep, s1, 0⟩
  | (none, s1) =>
    if (s1.players pid).firstCard ≠ none then
      match flipSecondFn pid row col s1 with
      | (.ok, s2, _) =>
        if checkRepB s2 then
          let t := triggerFn s2
          ⟨.ok, .second, t.1, t.2⟩
        else ⟨.err .repViolation, .second, s2, 0⟩
      | (o, s2, n) => ⟨o, .second, s2, n⟩
    else
      match flipFirstFn pid row col s1 with
      | (.ok, s2) =>
        if checkRepB s2 then
          let t := triggerFn s2
          ⟨.ok, .first, t.1, t.2⟩
        else ⟨.err .repViolation, .first, s2, 0⟩
      | (.suspended, s2) => ⟨.suspended, .first, s2, 0⟩
      | (.err e, s2) => ⟨.err e, .first, s2, 0⟩

/-- The synchronous section that runs when a woken waiter's task is
scheduled: the rest of `flipFirst`, then the tail of `flip`
(`checkRep`; `triggerBoardChange`). -/
def resumeFlipFn (pid : String) (row col : Int) (s : Board) : FlipResult :=
  match resumeFirstFn pid row col s with
  | (.ok, s2) =>
    if checkRepB s2 then
      let t := triggerFn s2
      ⟨.ok, .first, t.1, t.2⟩
    else ⟨.err .repViolation, .first, s2, 0⟩
  | (.suspended, s2) => ⟨.suspended, .first, s2, 0⟩
  | (.err e, s2) => ⟨.err e, .first, s2, 0⟩

/-- Run the continuation at the head of the pending-resume work list (the
oldest resolved-but-not-yet-run waiter, matching FIFO microtask order). -/
def stepResume (s : Board) : FlipResult :=
  match s.pendingResumes with
  | [] => ⟨.ok, .first, s, 0⟩
  | (pid, p) :: rest =>
    resumeFlipFn pid p.row p.col { s with pendingResumes := rest }

/-- The first pass of `map`: the distinct card values currently on the
board, in row-major first-occurrence order.  `transform` is invoked on
exactly these values (`if (!valueMap.has(cell.value)) valueMap.set(...)`). -/
def collectValues (s : Board) : List String :=
  s.grid.foldl
    (fun acc row => row.foldl
      (fun acc2 c =>
        match c.value with
        | none => acc2
        | some v => if v ∈ acc2 then acc2 else acc2 ++ [v])
      acc)
    []

/-- First-match association lookup (`results.get(...)`). -/
def lookupAssoc : List (String × String) → String → Option String
  | [], _ => none
  | (k, v) :: t, x => if k = x then some v else lookupAssoc t x

/-- `map(f)` with a pure transform: collect the distinct values, apply `f`
once to each, then write the results back over every non-empty cell in one
atomic step (the grid is not touched while the transforms are in flight),
run `checkRep` and fire the change listeners. -/
def mapFn (f : String → String) (s : Board) : FlipOutcome × Board × Nat :=
  let results := (collectValues s).map (fun v => (v, f v))
  let s1 := { s with
    grid := s.grid.map (fun row => row.map (fun c =>
      match c.value with
      | none => c
      | some v =>
        match lookupAssoc results v with
        | some nv => { c with value := some nv }
        | none => c)) }
  if checkRepB s1 then
    let t := triggerFn s1
    (.ok, t.1, t.2)
  else (.err .repViolation, s1, 0)

/-- Modelled from the spec: the command layer in `src/commands.ts` (used by
the tests but absent from the sources) resolves a `watch` with "the next
`look(playerId)` snapshot produced after any mutation fires the change
notification" — i.e. when a listener fires in state `s`, its promise is
fulfilled with `look playerId s`. -/
def watchResolution (pid : String) (s : Board) : String := look pid s

/-- A fresh cell as built by the `Board` constructor: the parsed symbol,
face down, uncontrolled. -/
def mkCell (v : String) : Cell :=
  { value := some v, faceUp := false, controlledBy := none }

/-- The `Board` constructor applied to a parsed grid of symbols (all other
fields start empty). -/
def buildInitial (rows cols : Nat) (grid : List (List String)) : Board :=
  { rows := rows, cols := cols,
    grid := grid.map (List.map mkCell),
    playerIds := [],
    players := Player.init,
    waiters := fun _ => [],
    pendingResumes := [],
    callbacks := 0 }

/-- JavaScript's whitespace class, restricted to the ASCII characters that
`String.prototype.trim` strips. -/
def isJsSpace (c : Char) : Bool :=
  c = ' ' ∨ c = '\t' ∨ c = '\n' ∨ c = '\r' ∨ c = '\x0b' ∨ c = '\x0c'

/-- `data.trim()` over the character list. -/
def jsTrim (cs : List Char) : List Char :=
  ((cs.dropWhile isJsSpace).reverse.dropWhile isJsSpace).reverse

/-- Split a character list on `'\n'`. -/
def splitNl (cs : List Char) : List (List Char) :=
  cs.foldr
    (fun c acc =>
      match acc with
      | [] => [[c]]
      | l :: t => if c = '\n' then [] :: (l :: t) else (c :: l) :: t)
    [[]]

/-- Drop the `'\r'` of a `"\r\n"` separator from the end of a piece. -/
def dropCr (cs : List Char) : List Char :=
  match cs.reverse with
  | '\r' :: rest => rest.reverse
  | _ => cs

/-- `data.trim().split(/\r?\n/)` as a list of line strings. -/
def jsLines (data : String) : List String :=
  ((splitNl (jsTrim data.data)).map dropCr).map String.mk

/-- Numeric value of a digit string (what `parseInt(s, 10)` returns on an
all-digit capture). -/
def digitsVal (cs : List Char) : Nat :=
  cs.foldl (fun acc c => 10 * acc + (c.toNat - 48)) 0

/-- The header regular expression `^(\d+)+x(\d+)$`: one or more digits, the
letter `x`, one or more digits (the nested `+` does not change the accepted
language, and the greedy first group captures the whole leading digit run).
Returns the two `parseInt`ed numbers. -/
def parseHeader (l : String) : Option (Nat × Nat) :=
  let cs := l.data
  let ds1 := cs.takeWhile Char.isDigit
  match cs.dropWhile Char.isDigit with
  | 'x' :: rest =>
    if ds1 ≠ [] ∧ rest ≠ [] ∧ rest.all Char.isDigit then
      some (digitsVal ds1, digitsVal rest)
    else none
  | _ => none

/-- The inner `for (c = 0; c < cols; c++)` loop of `parseFromFile`: read
`k` consecutive cells starting at flat index `idx` of `gridLines`, failing
on a missing or empty line. -/
def readCellsFrom (gridLines : List String) (idx : Nat) : Nat → Option (List String)
  | 0 => some []
  | k + 1 =>
    match gridLines[idx]? with
    | none => none
    | some cellStr =>
      if cellStr = "" then none
      else (readCellsFrom gridLines (idx + 1) k).map (cellStr :: ·)

/-- The outer `for (r = 0; r < rows; r++)` loop: build `k` rows of `cols`
cells each, row `r` reading flat indices `r*cols .. r*cols+cols-1`. -/
def readRowsFrom (gridLines : List String) (cols r : Nat) : Nat → Option (List (List String))
  | 0 => some []
  | k + 1 =>
    match readCellsFrom gridLines (r * cols) cols with
    | none => none
    | some row => (readRowsFrom gridLines cols (r + 1) k).map (row :: ·)

/-- `parseFromFile` after the file has been read, operating on the split
lines: parse the header, read `rows*cols` cells, construct the board and
run `checkRep` (whose `rows > 0` / `cols > 0` asserts are the only ones a
freshly built grid can trip).  Every failure is wrapped by the enclosing
`try/catch` into one `Could not read or parse board file` error, so the
result only distinguishes success from failure. -/
def parseLines (lines : List String) : Option Board :=
  match lines[0]? with
  | none => none
  | some l0 =>
    if l0 = "" then none
    else
      match parseHeader l0 with
      | none => none
      | some (rows, cols) =>
        let gridLines := lines.drop 1
        match readRowsFrom gridLines cols 0 rows with
        | none => none
        | some grid =>
          let b := buildInitial rows cols grid
          if checkRepB b then some b else none

/-- `Board.parseFromFile` on the file's text. -/
def parseBoardText (data : String) : Option Board :=
  parseLines (jsLines data)

/-- Iterate `k` single-waiter releases (`relinquishControl(pos, false)`) of
the same cell, as happens when its successive controllers give it up. -/
def releaseK (k : Nat) (p : Pos) (s : Board) : Board :=
  match k with
  | 0 => s
  | n + 1 => releaseK n p (relinquishControl false p s)

/-- The card value (if any) at a position. -/
def valueAt (s : Board) (row col : Int) : Option String :=
  match cellAt s row col with
  | none => none
  | some c => c.value

/-- All card values on the board, row-major, with multiplicity. -/
def gridValues (s : Board) : List String :=
  (s.grid.map (fun row => row.filterMap (fun c => c.value))).flatten

/-- One step of the first-occurrence deduplication `map` performs while
collecting values (`if (!valueMap.has(v)) valueMap.set(v, ...)`). -/
def dedupStep (acc : List String) (v : String) : List String :=
  if v ∈ acc then acc else acc ++ [v]

/-- What the specification says `map(f)` does to one cell: an empty cell is
skipped, a non-empty cell's value becomes `f` of its old value, and
`faceUp` and `controlledBy` are untouched. -/
def mapCellSpec (f : String → String) (c : Cell) : Cell :=
  match c.value with
  | none => c
  | some v => { c with value := some (f v) }

/-- Concatenation of a list of strings. -/
def strJoin : List String → String
  | [] => ""
  | a :: t => a ++ strJoin t

/-- The line the specification prescribes for one cell of a `look`
snapshot: `none` for an empty cell, `down` for a face-down card,
`my <symbol>` for a face-up card controlled by the viewer, and
`up <symbol>` for a face-up card controlled by someone else or by
nobody. -/
def lookSpecLine (pid : String) (c : Cell) : String :=
  if c.value = none then "none"
  else if c.faceUp = false then "down"
  else if c.controlledBy = some pid then "my " ++ c.value.getD ""
  else "up " ++ c.value.getD ""

/-- The snapshot format the specification prescribes: a `<R>x<C>` header
line followed by one line per cell in row-major order. -/
def lookSpec (pid : String) (s : Board) : String :=
  (Nat.repr s.rows ++ "x" ++ Nat.repr s.cols ++ "\n") ++
    strJoin ((s.grid.flatten).map (fun c => lookSpecLine pid c ++ "\n"))

/-- The grid's declared shape actually holds (rows of the declared sizes);
guaranteed by the representation invariant. -/
def GridShaped (s : Board) : Prop :=
  s.grid.length = s.rows ∧ ∀ row ∈ s.grid, row.length = s.cols

/-- The claim's failure condition for board construction, transcribed from
its words: the header does not match the `<R>x<C>` format with `R` and `C`
positive integers, or the number of non-empty body lines differs from
`R·C`, or some body line is empty or whitespace-only. -/
def claimParseFailsB (data : String) : Bool :=
  let lines := jsLines data
  let body := lines.drop 1
  match lines[0]? with
  | none => true
  | some l0 =>
    match parseHeader l0 with
    | none => true
    | some (r, c) =>
      decide (r = 0) || decide (c = 0) ||
      decide ((body.filter (fun l => l ≠ "")).length ≠ r * c) ||
      body.any (fun l => l.data.all isJsSpace)

/-- The grid of symbols the amended construction claim promises: row `r`,
column `c` holds body line `r*cols + c`. -/
def specGrid (body : List String) (rows cols : Nat) : List (List String) :=
  (List.range rows).map (fun r => (List.range cols).map (fun c => body.getD (r * cols + c) ""))

/-! ### Concrete executions

The states below are reached by running the embedded operations from
freshly constructed boards; they witness the concrete behaviours the
claim theorems talk about. -/

/-- A 1×2 board holding `A`, `B`. -/
def oobBoard : Board := buildInitial 1 2 [["A", "B"]]

/-- alice flips (0,0) and takes control of `A`. -/
def oobFlip1 : FlipResult := flipFn "alice" 0 0 oobBoard

/-- alice's second flip targets the out-of-bounds cell (0,5): rule 2-A
relinquishes the first card and records `secondCard = (0,5)`, and then
`checkRep`'s own in-bounds assertion on the recorded position throws. -/
def oobFlip2 : FlipResult := flipFn "alice" 0 5 oobFlip1.board

/-- any later flip by alice: `finishPreviousTurn` cannot resolve the stored
out-of-bounds position and throws before clearing the turn. -/
def oobFlip3 : FlipResult := flipFn "alice" 0 1 oobFlip2.board

/-- Seize trace, step 1: bob takes (0,0). -/
def seize1 : FlipResult := flipFn "bob" 0 0 oobBoard

/-- step 2: alice flips (0,0), finds it controlled, and suspends (rule 1-D). -/
def seize2 : FlipResult := flipFn "alice" 0 0 seize1.board

/-- step 3: bob's second card (0,1) does not match; rule 2-E releases
(0,0) and resolves alice's waiter, whose continuation is now pending. -/
def seize3 : FlipResult := flipFn "bob" 0 1 seize2.board

/-- step 4: charlie's flip of (0,0) was issued in the same synchronous
section as bob's releasing flip, so it runs before alice's resumed
continuation (promise continuations only run once the current synchronous
section ends); (0,0) is uncontrolled, so charlie takes it. -/
def seize4 : FlipResult := flipFn "charlie" 0 0 seize3.board

/-- step 5: alice's suspended flip finally resumes and re-examines (0,0),
which is controlled by charlie again. -/
def seize5 : FlipResult := stepResume seize4.board

/-- A 2×4 board: `A A C C / A B B D`. -/
def invBoard : Board := buildInitial 2 4 [["A", "A", "C", "C"], ["A", "B", "B", "D"]]

/-- bob takes (0,0). -/
def inv1 : FlipResult := flipFn "bob" 0 0 invBoard

/-- alice contends for (0,0) and suspends. -/
def inv2 : FlipResult := flipFn "alice" 0 0 inv1.board

/-- bob's non-matching second card (1,3) releases (0,0), waking alice. -/
def inv3 : FlipResult := flipFn "bob" 1 3 inv2.board

/-- charlie's flip of (0,0), issued in the same synchronous section as
bob's, runs before alice's continuation and takes the freshly released
cell. -/
def inv4 : FlipResult := flipFn "charlie" 0 0 inv3.board

/-- alice's continuation resumes, finds (0,0) controlled by charlie, and —
the behaviour settled by the first-card claim — overwrites charlie's
control instead of re-enqueueing. -/
def inv5 : FlipResult := stepResume inv4.board

/-- alice matches (0,0) with (0,1) (both `A`) and controls both. -/
def inv6 : FlipResult := flipFn "alice" 0 1 inv5.board

/-- charlie still has `firstCard = (0,0)` recorded; his second card (1,0)
is also `A`, so rule 2-D makes him "match" and steal (0,0) back from
alice. -/
def inv7 : FlipResult := flipFn "charlie" 1 0 inv6.board

/-- alice's next flip removes her matched pair (0,0)/(0,1) — including the
card charlie now controls — then she takes (1,1). -/
def inv8 : FlipResult := flipFn "alice" 1 1 inv7.board

/-- charlie's next flip runs rule 3-B cleanup: (0,0) is gone and (1,0) is
still controlled by charlie himself, so nothing is released, yet his turn
record is cleared; he then takes (0,2) as a fresh first card while still
controlling (1,0). -/
def inv9 : FlipResult := flipFn "charlie" 0 2 inv8.board

/-- charlie's (0,3) matches (0,2) (both `C`), so he takes control of both —
his third controlled cell; `checkRep` now fails inside `flip`. -/
def inv10 : FlipResult := flipFn "charlie" 0 3 inv9.board

/-- A 1×2 board holding a matching pair `A`, `A`. -/
def noteBoard : Board := buildInitial 1 2 [["A", "A"]]

/-- alice takes (0,0). -/
def note1 : FlipResult := flipFn "alice" 0 0 noteBoard

/-- alice matches it with (0,1). -/
def note2 : FlipResult := flipFn "alice" 0 1 note1.board

/-- bob registers a one-shot `watch` listener. -/
def note3 : Board := watchFn note2.board

/-- alice flips the out-of-bounds cell (0,7): the `finishPreviousTurn`
pre-step removes her matched pair — a cell-state mutation — and then the
first-card flip fails with `NoCardHere` before `flip` reaches
`triggerBoardChange`, so the pending listener never fires. -/
def note4 : FlipResult := flipFn "alice" 0 7 note3

/-- A 2×2 board used to instantiate universally quantified theorems. -/
def wBoard : Board := buildInitial 2 2 [["A", "B"], ["A", "C"]]

/-- One release step on a board with two waiters queued on (0,0). -/
def wQueueBoard : Board :=
  enqueueWaiter "carol" ⟨0, 0⟩ (enqueueWaiter "bob" ⟨0, 0⟩ (flipFn "alice" 0 0 wBoard).board)

/-- A sample transform for instantiating the `map` theorem. -/
def wTransform : String → String := fun v => v ++ "!"

/-- Sample parse input for instantiating the construction theorem. -/
def wParseLines : List String := ["2x1", "A", "B"]

/-!
## Helper lemmas
-/

theorem getElem?_listModify {α : Type} (f : α → α) :
    ∀ (l : List α) (n m : Nat),
      (listModify n f l)[m]? = if m = n then l[n]?.map f else l[m]?
  | [], n, m => by simp [listModify]
  | a :: t, n, m => by
    cases n with
    | zero =>
      cases m with
      | zero => simp [listModify]
      | succ m => simp [listModify]
    | succ n =>
      cases m with
      | zero => simp [listModify]
      | succ m =>
        simpa [listModify] using getElem?_listModify f t n m

theorem cellAt_modifyCell_self (s : Board) (p : Pos) (f : Cell → Cell) :
    cellAt (modifyCell s p f) p.row p.col = (cellAt s p.row p.col).map f := by
  unfold cellAt modifyCell
  by_cases h : p.row < 0 ∨ p.col < 0
  · simp [h]
  · simp only [h, if_false]
    rw [getElem?_listModify, if_pos rfl]
    cases s.grid[p.row.toNat]? with
    | none => simp
    | some row => simp [getElem?_listModify]

theorem waiters_modifyCell (s : Board) (p : Pos) (f : Cell → Cell) :
    (modifyCell s p f).waiters = s.waiters := by
  unfold modifyCell; split <;> rfl

theorem pending_modifyCell (s : Board) (p : Pos) (f : Cell → Cell) :
    (modifyCell s p f).pendingResumes = s.pendingResumes := by
  unfold modifyCell; split <;> rfl

theorem waitersAt_modifyCell (s : Board) (p q : Pos) (f : Cell → Cell) :
    waitersAt (modifyCell s p f) q = waitersAt s q := by
  simp [waitersAt, waiters_modifyCell]

/-- Releasing a cell that exists and has no waiters just clears its
controller. -/
theorem relinquish_eq_nil (b : Bool) (p : Pos) (s : Board) (c : Cell)
    (hcell : cellAt s p.row p.col = some c) (hq : waitersAt s p = []) :
    relinquishControl b p s
      = modifyCell s p (fun x => { x with controlledBy := none }) := by
  unfold relinquishControl
  rw [hcell]
  simp [waitersAt_modifyCell, hq]

/-- A single-waiter release with a non-empty queue: the head waiter moves
to the pending-resume list, the tail stays queued. -/
theorem relinquish_eq_false_cons (p : Pos) (s : Board) (c : Cell) (w : String)
    (rest : List String)
    (hcell : cellAt s p.row p.col = some c) (hq : waitersAt s p = w :: rest) :
    relinquishControl false p s =
      { setWaiters (modifyCell s p (fun x => { x with controlledBy := none })) p rest with
        pendingResumes := s.pendingResumes ++ [(w, p)] } := by
  unfold relinquishControl
  rw [hcell]
  simp only [waitersAt_modifyCell, hq, List.cons_ne_nil, if_false, Bool.false_eq_true,
    pending_modifyCell]

/-- A removal (`wakeAll`) with a non-empty queue: every waiter moves to the
pending-resume list and the queue is deleted. -/
theorem relinquish_eq_true_cons (p : Pos) (s : Board) (c : Cell) (w : String)
    (rest : List String)
    (hcell : cellAt s p.row p.col = some c) (hq : waitersAt s p = w :: rest) :
    relinquishControl true p s =
      { setWaiters (modifyCell s p (fun x => { x with controlledBy := none })) p [] with
        pendingResumes := s.pendingResumes ++ ((w :: rest).map (fun x => (x, p))) } := by
  unfold relinquishControl
  rw [hcell]
  simp only [waitersAt_modifyCell, hq, List.cons_ne_nil, if_false, if_true,
    pending_modifyCell]

theorem relinquish_false_step (s : Board) (p : Pos)
    (hc : (cellAt s p.row p.col).isSome = true) :
    (relinquishControl false p s).pendingResumes
        = s.pendingResumes ++ ((waitersAt s p).take 1).map (fun w => (w, p)) ∧
    waitersAt (relinquishControl false p s) p = (waitersAt s p).drop 1 ∧
    (cellAt (relinquishControl false p s) p.row p.col).isSome = true := by
  obtain ⟨c, hcell⟩ := Option.isSome_iff_exists.mp hc
  cases hq : waitersAt s p with
  | nil =>
    rw [relinquish_eq_nil false p s c hcell hq]
    refine ⟨by simp [pending_modifyCell], ?_, ?_⟩
    · simp [waitersAt_modifyCell, hq]
    · rw [cellAt_modifyCell_self, hcell]; rfl
  | cons w rest =>
    rw [relinquish_eq_false_cons p s c w rest hcell hq]
    refine ⟨by simp, ?_, ?_⟩
    · show waitersAt (setWaiters _ p rest) p = _
      simp [waitersAt, setWaiters]
    · show (cellAt (setWaiters (modifyCell s p _) p rest) p.row p.col).isSome = true
      have he : cellAt (setWaiters (modifyCell s p
            (fun x => { x with controlledBy := none })) p rest) p.row p.col
          = cellAt (modifyCell s p (fun x => { x with controlledBy := none }))
              p.row p.col := rfl
      rw [he, cellAt_modifyCell_self, hcell]; rfl

theorem releaseK_spec (p : Pos) :
    ∀ (k : Nat) (s : Board), (cellAt s p.row p.col).isSome = true →
      k ≤ (waitersAt s p).length →
      (releaseK k p s).pendingResumes
          = s.pendingResumes ++ ((waitersAt s p).take k).map (fun w => (w, p)) ∧
      waitersAt (releaseK k p s) p = (waitersAt s p).drop k ∧
      (cellAt (releaseK k p s) p.row p.col).isSome = true
  | 0, s, hc, _ => by simpa [releaseK] using hc
  | k + 1, s, hc, hk => by
    obtain ⟨h1, h2, h3⟩ := relinquish_false_step s p hc
    have hk2 : k ≤ (waitersAt (relinquishControl false p s) p).length := by
      rw [h2, List.length_drop]; omega
    obtain ⟨g1, g2, g3⟩ := releaseK_spec p k (relinquishControl false p s) h3 hk2
    have hstep : releaseK (k + 1) p s = releaseK k p (relinquishControl false p s) := rfl
    refine ⟨?_, ?_, ?_⟩
    · rw [hstep, g1, h1, h2, List.append_assoc, ← List.map_append]
      have hta : (waitersAt s p).take 1 ++ ((waitersAt s p).drop 1).take k
          = (waitersAt s p).take (k + 1) := by
        rw [Nat.add_comm k 1, List.take_add]
      rw [hta]
    · rw [hstep, g2, h2, List.drop_drop, Nat.add_comm]
    · rw [hstep]; exact g3

theorem relinquish_true_spec (s : Board) (p : Pos)
    (hc : (cellAt s p.row p.col).isSome = true) :
    (relinquishControl true p s).pendingResumes
        = s.pendingResumes ++ (waitersAt s p).map (fun w => (w, p)) ∧
    waitersAt (relinquishControl true p s) p = [] := by
  obtain ⟨c, hcell⟩ := Option.isSome_iff_exists.mp hc
  cases hq : waitersAt s p with
  | nil =>
    rw [relinquish_eq_nil true p s c hcell hq]
    exact ⟨by simp [pending_modifyCell], by simp [waitersAt_modifyCell, hq]⟩
  | cons w rest =>
    rw [relinquish_eq_true_cons p s c w rest hcell hq]
    refine ⟨by simp, ?_⟩
    show waitersAt (setWaiters _ p []) p = _
    simp [waitersAt, setWaiters]

theorem resume_observes_no_card (pid : String) (row col : Int) (s : Board)
    (h : valueAt s row col = none) :
    (resumeFlipFn pid row col s).outcome = .err (.cardGone row col) ∧
    (resumeFlipFn pid row col s).board = s := by
  unfold resumeFlipFn resumeFirstFn
  cases hc : cellAt s row col with
  | none => exact ⟨rfl, rfl⟩
  | some c =>
    have h2 : c.value = none := by simpa [valueAt, hc] using h
    constructor <;> simp [hc, h2]

theorem foldl_row_collect (row : List Cell) :
    ∀ acc : List String,
      row.foldl
        (fun acc2 c =>
          match c.value with
          | none => acc2
          | some v => if v ∈ acc2 then acc2 else acc2 ++ [v]) acc
        = (row.filterMap (fun c => c.value)).foldl dedupStep acc := by
  induction row with
  | nil => intro acc; rfl
  | cons c t ih =>
    intro acc
    cases hv : c.value with
    | none => simp [List.filterMap_cons, hv, ih]
    | some v => simp [List.filterMap_cons, hv, ih, dedupStep]

theorem foldl_grid_collect :
    ∀ (g : List (List Cell)) (acc : List String),
      g.foldl
        (fun acc row => row.foldl
          (fun acc2 c =>
            match c.value with
            | none => acc2
            | some v => if v ∈ acc2 then acc2 else acc2 ++ [v]) acc) acc
        = ((g.map (fun row => row.filterMap (fun c => c.value))).flatten).foldl dedupStep acc := by
  intro g
  induction g with
  | nil => intro acc; rfl
  | cons row g ih =>
    intro acc
    simp only [List.foldl_cons, List.map_cons, List.flatten_cons, List.foldl_append]
    rw [foldl_row_collect]
    exact ih _

theorem collectValues_eq_foldl (s : Board) :
    collectValues s = (gridValues s).foldl dedupStep [] :=
  foldl_grid_collect s.grid []

theorem dedupFold_mem (v : String) :
    ∀ (l acc : List String), v ∈ l.foldl dedupStep acc ↔ v ∈ acc ∨ v ∈ l := by
  intro l
  induction l with
  | nil => simp
  | cons a t ih =>
    intro acc
    rw [List.foldl_cons, ih]
    unfold dedupStep
    by_cases h : a ∈ acc
    · simp only [h, if_pos]
      constructor
      · rintro (hv | hv)
        · exact Or.inl hv
        · exact Or.inr (List.mem_cons_of_mem a hv)
      · rintro (hv | hv)
        · exact Or.inl hv
        · rcases List.mem_cons.mp hv with hv | hv
          · exact Or.inl (hv ▸ h)
          · exact Or.inr hv
    · simp only [h, if_neg, not_false_iff, List.mem_append, List.mem_singleton]
      constructor
      · rintro ((hv | hv) | hv)
        · exact Or.inl hv
        · exact Or.inr (List.mem_cons.mpr (Or.inl hv))
        · exact Or.inr (List.mem_cons.mpr (Or.inr hv))
      · rintro (hv | hv)
        · exact Or.inl (Or.inl hv)
        · rcases List.mem_cons.mp hv with hv | hv
          · exact Or.inl (Or.inr hv)
          · exact Or.inr hv

theorem dedupFold_nodup :
    ∀ (l acc : List String), acc.Nodup → (l.foldl dedupStep acc).Nodup := by
  intro l
  induction l with
  | nil => exact fun acc h => h
  | cons a t ih =>
    intro acc hacc
    rw [List.foldl_cons]
    apply ih
    unfold dedupStep
    by_cases h : a ∈ acc
    · simpa [h] using hacc
    · simp [h, List.nodup_append, hacc]

theorem lookupAssoc_map_self (f : String → String) :
    ∀ (l : List String) (v : String), v ∈ l →
      lookupAssoc (l.map (fun x => (x, f x))) v = some (f v) := by
  intro l
  induction l with
  | nil => intro v hv; simp at hv
  | cons a t ih =>
    intro v hv
    rw [List.map_cons]
    unfold lookupAssoc
    by_cases h : a = v
    · simp [h]
    · simp only [h, if_neg, not_false_iff]
      have hvt : v ∈ t := by
        rcases List.mem_cons.mp hv with hv2 | hv2
        · exact absurd hv2.symm h
        · exact hv2
      exact ih v hvt

theorem cellAt_congr (s1 s2 : Board) (h : s1.grid = s2.grid) (row col : Int) :
    cellAt s1 row col = cellAt s2 row col := by
  unfold cellAt; rw [h]

theorem mapFn_board_fields (f : String → String) (s : Board) :
    (mapFn f s).2.1.grid = s.grid.map (List.map (fun c =>
      match c.value with
      | none => c
      | some v =>
        match lookupAssoc ((collectValues s).map (fun v => (v, f v))) v with
        | some nv => { c with value := some nv }
        | none => c)) ∧
    (mapFn f s).2.1.players = s.players ∧ (mapFn f s).2.1.waiters = s.waiters ∧
    (mapFn f s).2.1.pendingResumes = s.pendingResumes ∧
    (mapFn f s).2.1.playerIds = s.playerIds := by
  unfold mapFn
  dsimp only
  split <;> exact ⟨rfl, rfl, rfl, rfl, rfl⟩

theorem value_mem_gridValues (s : Board) (row col : Int) (c : Cell) (v : String)
    (hc : cellAt s row col = some c) (hv : c.value = some v) :
    v ∈ gridValues s := by
  unfold cellAt at hc
  by_cases h : row < 0 ∨ col < 0
  · rw [if_pos h] at hc; exact absurd hc (by simp)
  · rw [if_neg h] at hc
    cases hrow : s.grid[row.toNat]? with
    | none => rw [hrow] at hc; exact absurd hc (by simp)
    | some rowl =>
      rw [hrow] at hc
      have hcr : c ∈ rowl := List.getElem?_mem hc
      have hrg : rowl ∈ s.grid := List.getElem?_mem hrow
      unfold gridValues
      apply List.mem_flatten.mpr
      refine ⟨rowl.filterMap (fun c => c.value), List.mem_map_of_mem _ hrg, ?_⟩
      exact List.mem_filterMap.mpr ⟨c, hcr, hv⟩

theorem cellAt_map_grid (s : Board) (g : Cell → Cell) (row col : Int) :
    cellAt { s with grid := s.grid.map (List.map g) } row col
      = (cellAt s row col).map g := by
  unfold cellAt
  by_cases h : row < 0 ∨ col < 0
  · simp [h]
  · simp only [h, if_false]
    rw [List.getElem?_map]
    cases s.grid[row.toNat]? with
    | none => rfl
    | some rowl => simp [List.getElem?_map]

theorem mapFn_cellAt (f : String → String) (s : Board) (row col : Int) :
    cellAt (mapFn f s).2.1 row col = (cellAt s row col).map (mapCellSpec f) := by
  have hg := (mapFn_board_fields f s).1
  rw [cellAt_congr (mapFn f s).2.1 { s with grid := s.grid.map (List.map (fun c =>
      match c.value with
      | none => c
      | some v =>
        match lookupAssoc ((collectValues s).map (fun v => (v, f v))) v with
        | some nv => { c with value := some nv }
        | none => c)) } hg row col]
  rw [cellAt_map_grid]
  cases hc : cellAt s row col with
  | none => rfl
  | some c =>
    simp only [Option.map_some']
    congr 1
    cases hv : c.value with
    | none => simp [mapCellSpec, hv]
    | some v =>
      have hmem : v ∈ collectValues s := by
        rw [collectValues_eq_foldl]
        exact (dedupFold_mem v _ []).mpr
          (Or.inr (value_mem_gridValues s row col c v hc hv))
      simp [mapCellSpec, hv, lookupAssoc_map_self f _ v hmem]

theorem mapFn_valueAt (f : String → String) (s : Board) (row col : Int) :
    valueAt (mapFn f s).2.1 row col = (valueAt s row col).map f := by
  unfold valueAt
  rw [mapFn_cellAt]
  cases cellAt s row col with
  | none => rfl
  | some c =>
    cases hv : c.value with
    | none => simp [mapCellSpec, hv]
    | some v => simp [mapCellSpec, hv]

theorem strJoin_append : ∀ l1 l2 : List String, strJoin (l1 ++ l2) = strJoin l1 ++ strJoin l2
  | [], l2 => by simp [strJoin, String.empty_append]
  | a :: t, l2 => by
    rw [List.cons_append]
    show a ++ strJoin (t ++ l2) = (a ++ strJoin t) ++ strJoin l2
    rw [strJoin_append t l2, String.append_assoc]

theorem cellLine_eq_spec (pid : String) (c : Cell) :
    cellLine pid c = lookSpecLine pid c := by
  unfold cellLine lookSpecLine
  cases hv : c.value with
  | none => simp
  | some v => simp

theorem foldl_look_row (pid : String) (row : List Cell) :
    ∀ acc : String,
      row.foldl (fun acc2 c => acc2 ++ (cellLine pid c ++ "\n")) acc
        = acc ++ strJoin (row.map (fun c => cellLine pid c ++ "\n")) := by
  induction row with
  | nil => intro acc; simp [strJoin, String.append_empty]
  | cons c t ih =>
    intro acc
    rw [List.foldl_cons, ih, List.map_cons]
    show _ = acc ++ ((cellLine pid c ++ "\n") ++ strJoin _)
    rw [String.append_assoc]

theorem foldl_look_grid (pid : String) :
    ∀ (g : List (List Cell)) (acc : String),
      g.foldl
        (fun acc row => row.foldl (fun acc2 c => acc2 ++ (cellLine pid c ++ "\n")) acc) acc
        = acc ++ strJoin ((g.flatten).map (fun c => cellLine pid c ++ "\n")) := by
  intro g
  induction g with
  | nil => intro acc; simp [strJoin, String.append_empty]
  | cons row g ih =>
    intro acc
    rw [List.foldl_cons, foldl_look_row, ih, List.flatten_cons, List.map_append,
      strJoin_append, String.append_assoc]

theorem look_eq_lookSpec (pid : String) (s : Board) :
    look pid s = lookSpec pid s := by
  unfold look lookSpec
  rw [foldl_look_grid]
  simp only [cellLine_eq_spec]

theorem flatten_length_uniform {α : Type} (cols : Nat) :
    ∀ g : List (List α), (∀ row ∈ g, row.length = cols) →
      g.flatten.length = g.length * cols
  | [], _ => by simp
  | row :: g, h => by
    rw [List.flatten_cons, List.length_append, List.length_cons, Nat.succ_mul,
      flatten_length_uniform cols g (fun r hr => h r (List.mem_cons_of_mem row hr)),
      h row (List.mem_cons_self row g), Nat.add_comm]

@[simp] theorem callbacks_modifyCell (s : Board) (p : Pos) (f : Cell → Cell) :
    (modifyCell s p f).callbacks = s.callbacks := by
  unfold modifyCell; split <;> rfl

@[simp] theorem callbacks_setWaiters (s : Board) (p : Pos) (q : List String) :
    (setWaiters s p q).callbacks = s.callbacks := rfl

@[simp] theorem callbacks_updatePlayer (pid : String) (f : Player → Player) (s : Board) :
    (updatePlayer pid f s).callbacks = s.callbacks := rfl

@[simp] theorem callbacks_ensurePlayer (pid : String) (s : Board) :
    (ensurePlayer pid s).callbacks = s.callbacks := by
  unfold ensurePlayer; split <;> rfl

@[simp] theorem callbacks_enqueueWaiter (pid : String) (p : Pos) (s : Board) :
    (enqueueWaiter pid p s).callbacks = s.callbacks := rfl

@[simp] theorem callbacks_takeControl (pid : String) (p : Pos) (s : Board) :
    (takeControl pid p s).callbacks = s.callbacks := by
  unfold takeControl; simp

@[simp] theorem callbacks_clearTurn (pid : String) (s : Board) :
    (clearTurn pid s).callbacks = s.callbacks := rfl

@[simp] theorem callbacks_flipDownIfIdle (s : Board) (p : Pos) :
    (flipDownIfIdle s p).callbacks = s.callbacks := by
  unfold flipDownIfIdle
  split
  · rfl
  · split <;> simp

@[simp] theorem callbacks_relinquish (b : Bool) (p : Pos) (s : Board) :
    (relinquishControl b p s).callbacks = s.callbacks := by
  unfold relinquishControl
  split
  · rfl
  · dsimp only
    split
    · simp
    · split
      · simp
      · split <;> simp

@[simp] theorem callbacks_finishPreviousTurn (pid : String) (s : Board) :
    (finishPreviousTurn pid s).2.callbacks = s.callbacks := by
  unfold finishPreviousTurn
  dsimp only
  repeat' split
  all_goals simp

@[simp] theorem callbacks_flipFirstFn (pid : String) (row col : Int) (s : Board) :
    (flipFirstFn pid row col s).2.callbacks = s.callbacks := by
  unfold flipFirstFn
  split
  · rfl
  · split
    · rfl
    · split
      · rfl
      · split <;> simp

theorem flipSecond_fired_and_callbacks (pid : String) (row col : Int) (s : Board) :
    ((flipSecondFn pid row col s).2.2 =
      if (flipSecondFn pid row col s).1 = .err (.noCardHere row col) ∨
          (flipSecondFn pid row col s).1 = .err (.cardControlled row col)
      then s.callbacks else 0) ∧
    ((flipSecondFn pid row col s).1 = .ok →
      (flipSecondFn pid row col s).2.1.callbacks = s.callbacks) := by
  unfold flipSecondFn
  dsimp only
  repeat' split
  all_goals simp_all [triggerFn]

theorem mapFn_fired_eq (f : String → String) (s : Board) :
    (mapFn f s).2.2 = if (mapFn f s).1 = .ok then s.callbacks else 0 := by
  unfold mapFn
  dsimp only
  split <;> simp [triggerFn]

theorem callbacks_resumeFirstFn (pid : String) (row col : Int) (s : Board) :
    (resumeFirstFn pid row col s).2.callbacks = s.callbacks := by
  unfold resumeFirstFn
  repeat' split
  all_goals simp

theorem resumeFlip_fired_eq (pid : String) (row col : Int) (s : Board) :
    (resumeFlipFn pid row col s).fired =
      if (resumeFlipFn pid row col s).outcome = .ok then s.callbacks else 0 := by
  unfold resumeFlipFn
  rcases hr : resumeFirstFn pid row col s with ⟨o2, s2⟩
  have hcb : s2.callbacks = s.callbacks := by
    have h2 := callbacks_resumeFirstFn pid row col s
    rw [hr] at h2
    exact h2
  cases o2 with
  | ok =>
    dsimp only
    split <;> simp [triggerFn, hcb]
  | suspended => simp
  | err e => simp

theorem flipFn_fired_eq (pid : String) (row col : Int) (s : Board) :
    (flipFn pid row col s).fired =
      if (flipFn pid row col s).outcome = .ok ∨
          ((flipFn pid row col s).path = .second ∧
            ((flipFn pid row col s).outcome = .err (.noCardHere row col) ∨
              (flipFn pid row col s).outcome = .err (.cardControlled row col)))
      then s.callbacks else 0 := by
  unfold flipFn
  dsimp only
  rcases hfp : finishPreviousTurn pid (ensurePlayer pid s) with ⟨o1, s1⟩
  have hs1 : s1.callbacks = s.callbacks := by
    have := callbacks_finishPreviousTurn pid (ensurePlayer pid s)
    rw [hfp] at this
    simpa using this
  cases o1 with
  | some e => simp
  | none =>
    dsimp only
    split
    · rcases hsec : flipSecondFn pid row col s1 with ⟨o2, s2, n2⟩
      have hn2 := (flipSecond_fired_and_callbacks pid row col s1).1
      rw [hsec] at hn2
      cases o2 with
      | ok =>
        have hcb := (flipSecond_fired_and_callbacks pid row col s1).2
        rw [hsec] at hcb
        dsimp only at hcb
        have hcb := hcb rfl
        dsimp only
        split <;> simp_all [triggerFn]
      | suspended => simpa [hs1] using hn2
      | err e => simpa [hs1] using hn2
    · rcases hfst : flipFirstFn pid row col s1 with ⟨o2, s2⟩
      have hcb := callbacks_flipFirstFn pid row col s1
      rw [hfst] at hcb
      dsimp only at hcb
      cases o2 with
      | ok =>
        dsimp only
        split <;> simp_all [triggerFn]
      | suspended => simp
      | err e => simp

theorem forall_lt_succ_shift {P : Nat → Prop} (k : Nat) :
    (∀ j < k + 1, P j) ↔ P 0 ∧ ∀ j < k, P (j + 1) := by
  constructor
  · intro h
    exact ⟨h 0 (Nat.succ_pos k), fun j hj => h (j + 1) (by omega)⟩
  · rintro ⟨h0, h⟩ j hj
    cases j with
    | zero => exact h0
    | succ j => exact h j (by omega)

theorem forall_flat_nested (rows cols : Nat) (P : Nat → Prop) :
    (∀ i < rows * cols, P i) ↔ ∀ r < rows, ∀ c < cols, P (r * cols + c) := by
  constructor
  · intro h r hr c hc
    apply h
    have h1 : r * cols + c < (r + 1) * cols := by
      rw [Nat.succ_mul]; omega
    have h2 : (r + 1) * cols ≤ rows * cols := Nat.mul_le_mul_right cols hr
    omega
  · intro h i hi
    have hcols : 0 < cols := by
      rcases Nat.eq_zero_or_pos cols with hc | hc
      · rw [hc, Nat.mul_zero] at hi; omega
      · exact hc
    have h1 : i % cols < cols := Nat.mod_lt i hcols
    have h2 : i / cols < rows := by
      rw [Nat.div_lt_iff_lt_mul hcols]
      exact hi
    have h3 : i / cols * cols + i % cols = i := by
      rw [Nat.mul_comm]
      exact Nat.div_add_mod i cols
    have h4 := h (i / cols) h2 (i % cols) h1
    rwa [h3] at h4

theorem readCells_isSome (gl : List String) :
    ∀ (k idx : Nat), (readCellsFrom gl idx k).isSome = true ↔
      ∀ j < k, (gl[idx + j]?).getD "" ≠ "" := by
  intro k
  induction k with
  | zero => intro idx; simp [readCellsFrom]
  | succ k ih =>
    intro idx
    rw [forall_lt_succ_shift]
    unfold readCellsFrom
    cases hg : gl[idx]? with
    | none => simp [hg]
    | some cellStr =>
      dsimp only
      by_cases he : cellStr = ""
      · simp [hg, he]
      · rw [if_neg he]
        rw [Option.isSome_map']
        rw [ih (idx + 1)]
        constructor
        · intro h
          refine ⟨by simp [hg, he], fun j hj => ?_⟩
          have h2 := h j hj
          rwa [show idx + 1 + j = idx + (j + 1) by omega] at h2
        · rintro ⟨_, h⟩ j hj
          have h2 := h j hj
          rwa [show idx + (j + 1) = idx + 1 + j by omega] at h2

theorem readCells_eq (gl : List String) :
    ∀ (k idx : Nat) (out : List String), readCellsFrom gl idx k = some out →
      out = (List.range k).map (fun j => (gl[idx + j]?).getD "") := by
  intro k
  induction k with
  | zero =>
    intro idx out h
    unfold readCellsFrom at h
    simp only [Option.some_inj] at h
    simp [← h]
  | succ k ih =>
    intro idx out h
    unfold readCellsFrom at h
    cases hg : gl[idx]? with
    | none => rw [hg] at h; cases h
    | some cellStr =>
      rw [hg] at h
      dsimp only at h
      by_cases he : cellStr = ""
      · rw [if_pos he] at h; cases h
      · rw [if_neg he] at h
        cases hrec : readCellsFrom gl (idx + 1) k with
        | none => rw [hrec] at h; cases h
        | some out2 =>
          rw [hrec] at h
          simp only [Option.map_some', Option.some_inj] at h
          rw [← h, List.range_succ_eq_map, List.map_cons, List.map_map]
          congr 1
          · simp [hg]
          · rw [ih (idx + 1) out2 hrec]
            have hfe : ((fun j => (gl[idx + j]?).getD "") ∘ Nat.succ)
                = (fun j => (gl[idx + 1 + j]?).getD "") := by
              funext j
              have : idx + Nat.succ j = idx + 1 + j := by omega
              simp [Function.comp, this]
            rw [hfe]

theorem readRows_isSome (gl : List String) (cols : Nat) :
    ∀ (k r : Nat), (readRowsFrom gl cols r k).isSome = true ↔
      ∀ i < k, ∀ j < cols, (gl[(r + i) * cols + j]?).getD "" ≠ "" := by
  intro k
  induction k with
  | zero => intro r; simp [readRowsFrom]
  | succ k ih =>
    intro r
    rw [forall_lt_succ_shift]
    unfold readRowsFrom
    cases hrow : readCellsFrom gl (r * cols) cols with
    | none =>
      have hns : ¬ ∀ j < cols, (gl[r * cols + j]?).getD "" ≠ "" := by
        intro hcond
        have := (readCells_isSome gl cols (r * cols)).mpr hcond
        rw [hrow] at this
        cases this
      constructor
      · intro h; simp at h
      · rintro ⟨h0, _⟩
        exact absurd (by simpa using h0) hns
    | some row =>
      dsimp only
      rw [Option.isSome_map']
      rw [ih (r + 1)]
      have h0 : ∀ j < cols, (gl[(r + 0) * cols + j]?).getD "" ≠ "" := by
        have := (readCells_isSome gl cols (r * cols)).mp (by rw [hrow]; rfl)
        simpa using this
      constructor
      · intro h
        refine ⟨h0, fun i hi => ?_⟩
        have h2 := h i hi
        rwa [show (r + 1 + i) * cols = (r + (i + 1)) * cols by ring_nf] at h2
      · rintro ⟨_, h⟩ i hi
        have h2 := h i hi
        rwa [show (r + (i + 1)) * cols = (r + 1 + i) * cols by ring_nf] at h2

theorem readRows_eq (gl : List String) (cols : Nat) :
    ∀ (k r : Nat) (g : List (List String)), readRowsFrom gl cols r k = some g →
      g = (List.range k).map
        (fun i => (List.range cols).map (fun j => (gl[(r + i) * cols + j]?).getD "")) := by
  intro k
  induction k with
  | zero =>
    intro r g h
    unfold readRowsFrom at h
    simp only [Option.some_inj] at h
    simp [← h]
  | succ k ih =>
    intro r g h
    unfold readRowsFrom at h
    cases hrow : readCellsFrom gl (r * cols) cols with
    | none => rw [hrow] at h; cases h
    | some row =>
      rw [hrow] at h
      dsimp only at h
      cases hrec : readRowsFrom gl cols (r + 1) k with
      | none => rw [hrec] at h; cases h
      | some g2 =>
        rw [hrec] at h
        simp only [Option.map_some', Option.some_inj] at h
        rw [← h, List.range_succ_eq_map, List.map_cons, List.map_map]
        congr 1
        · have hr2 := readCells_eq gl cols (r * cols) row hrow
          rw [hr2]
          apply List.map_congr_left
          intro j _
          have h2 : r + 0 = r := by omega
          rw [h2]
        · rw [ih (r + 1) g2 hrec]
          apply List.map_congr_left
          intro i _
          simp only [Function.comp_apply, Nat.succ_eq_add_one]
          have h2 : r + 1 + i = r + (i + 1) := by omega
          rw [h2]

theorem checkRep_buildInitial (rows cols : Nat) (grid : List (List String))
    (hlen : grid.length = rows) (hrows : ∀ row ∈ grid, row.length = cols) :
    (checkRepB (buildInitial rows cols grid) = true) ↔ (0 < rows ∧ 0 < cols) := by
  unfold checkRepB buildInitial
  simp only [Bool.and_eq_true, decide_eq_true_eq, List.length_map, List.all_eq_true,
    List.mem_map, List.all_nil, and_true, and_assoc]
  constructor
  · tauto
  · rintro ⟨h1, h2⟩
    refine ⟨h1, h2, hlen, ?_, ?_⟩
    · rintro row ⟨row0, hrow0, rfl⟩
      simp [hrows row0 hrow0]
    · rintro row ⟨row0, hrow0, rfl⟩ c hc
      rw [List.mem_map] at hc
      obtain ⟨v, _, rfl⟩ := hc
      rfl

theorem getD_eq_getElem?_getD {α : Type} (l : List α) (n : Nat) (d : α) :
    l.getD n d = (l[n]?).getD d := by
  simp [List.getD]

theorem parseLines_isSome_iff (lines : List String) :
    (parseLines lines).isSome = true ↔
      ∃ l0 rows cols, lines[0]? = some l0 ∧ parseHeader l0 = some (rows, cols) ∧
        0 < rows ∧ 0 < cols ∧
        ∀ i < rows * cols, ((lines.drop 1)[i]?).getD "" ≠ "" := by
  unfold parseLines
  cases h0 : lines[0]? with
  | none => simp
  | some l0 =>
    dsimp only
    by_cases hemp : l0 = ""
    · rw [if_pos hemp]
      simp only [Option.isSome_none, Bool.false_eq_true, false_iff]
      rintro ⟨l02, rows, cols, h02, hh2, _⟩
      have hEq : l0 = l02 := Option.some_inj.mp h02
      subst hEq
      subst hemp
      rw [show parseHeader "" = none from by decide] at hh2
      cases hh2
    · rw [if_neg hemp]
      cases hh : parseHeader l0 with
      | none =>
        simp only [Option.isSome_none, Bool.false_eq_true, false_iff]
        rintro ⟨l02, rows, cols, h02, hh2, _⟩
        have hEq : l0 = l02 := Option.some_inj.mp h02
        subst hEq
        rw [hh] at hh2
        cases hh2
      | some rc =>
        obtain ⟨rows, cols⟩ := rc
        dsimp only
        have hflat : (∀ i < rows, ∀ j < cols, (((lines.drop 1))[(0 + i) * cols + j]?).getD "" ≠ "")
            ↔ ∀ i < rows * cols, ((lines.drop 1)[i]?).getD "" ≠ "" := by
          rw [forall_flat_nested rows cols]
          constructor
          · intro h i hi j hj
            have h2 := h i hi j hj
            rwa [Nat.zero_add] at h2
          · intro h i hi j hj
            have h2 := h i hi j hj
            rwa [Nat.zero_add]
        cases hrr : readRowsFrom (lines.drop 1) cols 0 rows with
        | none =>
          simp only [Option.isSome_none, Bool.false_eq_true, false_iff]
          rintro ⟨l02, rows2, cols2, h02, hh2, hr2, hc2, hcond⟩
          have hEq : l0 = l02 := Option.some_inj.mp h02
          subst hEq
          rw [hh] at hh2
          injection Option.some_inj.mp hh2 with hA hB
          subst hA; subst hB
          have hs : (readRowsFrom (lines.drop 1) cols 0 rows).isSome = true :=
            (readRows_isSome (lines.drop 1) cols rows 0).mpr (hflat.mpr hcond)
          rw [hrr] at hs
          cases hs
        | some g =>
          dsimp only
          have hshape1 : g.length = rows := by
            rw [readRows_eq (lines.drop 1) cols rows 0 g hrr]
            simp
          have hshape2 : ∀ row ∈ g, row.length = cols := by
            rw [readRows_eq (lines.drop 1) cols rows 0 g hrr]
            intro row hrow
            rw [List.mem_map] at hrow
            obtain ⟨i, _, rfl⟩ := hrow
            simp
          by_cases hcr : checkRepB (buildInitial rows cols g) = true
          · rw [if_pos hcr]
            simp only [Option.isSome_some, true_iff]
            obtain ⟨hr1, hc1⟩ := (checkRep_buildInitial rows cols g hshape1 hshape2).mp hcr
            refine ⟨l0, rows, cols, rfl, hh, hr1, hc1, ?_⟩
            exact hflat.mp ((readRows_isSome (lines.drop 1) cols rows 0).mp (by rw [hrr]; rfl))
          · rw [if_neg hcr]
            simp only [Option.isSome_none, Bool.false_eq_true, false_iff]
            rintro ⟨l02, rows2, cols2, h02, hh2, hr2, hc2, _⟩
            have hEq : l0 = l02 := Option.some_inj.mp h02
            subst hEq
            rw [hh] at hh2
            injection Option.some_inj.mp hh2 with hA hB
            subst hA; subst hB
            exact hcr ((checkRep_buildInitial rows cols g hshape1 hshape2).mpr ⟨hr2, hc2⟩)

theorem parseLines_value (lines : List String) (l0 : String) (rows cols : Nat) (b : Board)
    (h0 : lines[0]? = some l0) (hh : parseHeader l0 = some (rows, cols))
    (hb : parseLines lines = some b) :
    b = buildInitial rows cols (specGrid (lines.drop 1) rows cols) := by
  unfold parseLines at hb
  rw [h0] at hb
  dsimp only at hb
  by_cases hemp : l0 = ""
  · rw [if_pos hemp] at hb; cases hb
  · rw [if_neg hemp, hh] at hb
    dsimp only at hb
    cases hrr : readRowsFrom (lines.drop 1) cols 0 rows with
    | none => rw [hrr] at hb; cases hb
    | some g =>
      rw [hrr] at hb
      dsimp only at hb
      by_cases hcr : checkRepB (buildInitial rows cols g) = true
      · rw [if_pos hcr] at hb
        have hbg : buildInitial rows cols g = b := Option.some_inj.mp hb
        rw [← hbg]
        have hg : g = specGrid (lines.drop 1) rows cols := by
          rw [readRows_eq (lines.drop 1) cols rows 0 g hrr]
          unfold specGrid
          apply List.map_congr_left
          intro i _
          apply List.map_congr_left
          intro j _
          rw [Nat.zero_add, getD_eq_getElem?_getD]
        rw [hg]
      · rw [if_neg hcr] at hb; cases hb

/-!
## Claim theorems
-/

/-- C1: the claim says a resumed first-card flip that finds its cell
controlled by another player again is re-enqueued at the tail of the
cell's waiter queue and suspends again.  The code does not: in the
`seize` trace, alice's suspended flip on (0,0) is resumed while charlie
controls (0,0) — charlie's flip was issued in the same synchronous section
as the releasing flip, so it ran before alice's promise continuation —
and alice's continuation simply overwrites charlie's control and reports
success, leaving the waiter queue empty instead of re-enqueueing.  This
stolen control is what later lets a player exceed the board's own
two-cards-controlled limit (see the C5 theorem). -/
theorem C1_resume_takes_control_instead_of_requeueing :
    (cellAt seize4.board 0 0).map (fun c => c.controlledBy) = some (some "charlie") ∧
    seize5.outcome = .ok ∧
    (cellAt seize5.board 0 0).map (fun c => c.controlledBy) = some (some "alice") ∧
    waitersAt seize5.board ⟨0, 0⟩ = [] ∧
    seize5.board.pendingResumes = [] := by
  refine ⟨?_, ?_, ?_, ?_, ?_⟩ <;> decide

/-- C2: the claim says a failed flip never poisons the board and later
flips are processed normally.  But after alice's out-of-bounds second
flip (which itself aborts with a `checkRep` assertion instead of the
contracted `NoCardHere`), `secondCard = (0,5)` stays recorded forever:
every subsequent `flip` by alice throws `Invalid card positions stored
for player` from `finishPreviousTurn` before reaching a flip rule, and
leaves the board unchanged, so the jam never clears. -/
theorem C2_failed_flip_poisons_board :
    oobFlip2.outcome = .err .repViolation ∧
    (oobFlip2.board.players "alice").secondCard = some ⟨0, 5⟩ ∧
    checkRepB oobFlip2.board = false ∧
    ∀ r c : Int,
      (flipFn "alice" r c oobFlip2.board).outcome = .err .invalidStoredPositions ∧
      (flipFn "alice" r c oobFlip2.board).board = oobFlip2.board := by
  refine ⟨by decide, by decide, by decide, fun r c => ⟨rfl, rfl⟩⟩

/-- C3: the claim says a second-card flip at an empty or out-of-bounds
target performs the rule 2-A side effects and then fails with
`NoCardHere`.  For the out-of-bounds target (0,5) the side effects do
happen — the first card (0,0) is relinquished, `secondPos = (0,5)` and
`matched = false` are recorded — but the surfaced error is the `checkRep`
assertion (`card position out of bounds`, modelled `repViolation`), not
`NoCardHere`, because `checkRep` runs before the `NoCardHere` throw and
its per-player bounds assertion fires on the just-recorded position. -/
theorem C3_out_of_bounds_second_flip_wrong_error :
    oobFlip2.outcome = .err .repViolation ∧
    oobFlip2.outcome ≠ .err (.noCardHere 0 5) ∧
    (cellAt oobFlip2.board 0 0).map (fun c => c.controlledBy) = some none ∧
    (oobFlip2.board.players "alice").secondCard = some ⟨0, 5⟩ ∧
    (oobFlip2.board.players "alice").hasMatched = false ∧
    oobFlip2.fired = 0 := by
  refine ⟨?_, ?_, ?_, ?_, ?_, ?_⟩ <;> decide

/-- C5: the claim states the invariants — and the code's own `checkRep`
asserts them — for every reachable state, in particular that each player
controls at most two cells.  The `inv` trace refutes this: after the
resumed-waiter control theft of step 5 (possible because promise
continuations run after the synchronous section that resolved them, see
C1), charlie ends up controlling three cells ((1,0), (0,2) and (0,3)),
and the final `flip` aborts with the `checkRep` assertion, leaving the
violating state in place.  The starting board and even the state just
before the last step still satisfy `checkRep`. -/
theorem C5_reachable_state_violates_invariant :
    checkRepB invBoard = true ∧
    checkRepB inv9.board = true ∧
    inv10.outcome = .err .repViolation ∧
    countControlled inv10.board "charlie" = 3 ∧
    checkRepB inv10.board = false := by
  refine ⟨?_, ?_, ?_, ?_, ?_⟩ <;> decide

/-- C7 counterexample: the claim says every registered listener is
resolved after "any successful or failed flip that altered cell state".
In the `note` trace, bob's listener is registered, and alice's next flip
does alter cell state — its `finishPreviousTurn` pre-step removes her
matched pair — but then fails on the first card with `NoCardHere`, which
propagates out of `flip` before `triggerBoardChange` runs: nothing is
fired and bob's listener is still pending. -/
theorem C7_counterexample_mutating_failed_flip_fires_nothing :
    note4.outcome = .err (.noCardHere 0 7) ∧
    note4.board.grid ≠ note3.grid ∧
    valueAt note4.board 0 0 = none ∧ valueAt note3 0 0 = some "A" ∧
    note4.fired = 0 ∧
    note4.board.callbacks = 1 := by
  refine ⟨?_, ?_, ?_, ?_, ?_, ?_⟩ <;> decide

/-- C4: waiter wakeups are FIFO per cell.  If the queue at `p` is
`q = [W1, ..., Wn]` then `k` consecutive releases of the cell (each a
`relinquishControl(p, wakeAll=false)` performed as the successive
controllers give the cell up, with no new waiters arriving) resolve
exactly `W1, ..., Wk`, in that order, one per release — the resolved
tokens appear appended in order to the pending work list and the first
`k` entries have left the queue.  A removal (`wakeAll=true`) instead
resolves every queued waiter at once and empties the queue; and any
waiter resumed while the cell holds no card fails with the
card-no-longer-available error, observing `no card` and changing
nothing. -/
theorem C4_fifo_wakeups (s : Board) (p : Pos) (q : List String) (k : Nat)
    (hq : waitersAt s p = q)
    (hk : k ≤ q.length)
    (hc : (cellAt s p.row p.col).isSome = true) :
    ((releaseK k p s).pendingResumes
        = s.pendingResumes ++ (q.take k).map (fun w => (w, p)) ∧
      waitersAt (releaseK k p s) p = q.drop k) ∧
    ((relinquishControl true p s).pendingResumes
        = s.pendingResumes ++ q.map (fun w => (w, p)) ∧
      waitersAt (relinquishControl true p s) p = []) ∧
    (∀ pid (s2 : Board), valueAt s2 p.row p.col = none →
      (resumeFlipFn pid p.row p.col s2).outcome = .err (.cardGone p.row p.col) ∧
      (resumeFlipFn pid p.row p.col s2).board = s2) := by
  subst hq
  obtain ⟨h1, h2, _⟩ := releaseK_spec p k s hc hk
  obtain ⟨h3, h4⟩ := relinquish_true_spec s p hc
  exact ⟨⟨h1, h2⟩, ⟨h3, h4⟩, fun pid s2 hv => resume_observes_no_card pid p.row p.col s2 hv⟩

/-- Witness: on a board where alice controls (0,0) and bob then carol are
queued on it, one release resolves exactly bob (carol stays queued), a
removal-style release resolves bob then carol in order, and a waiter
resumed on an empty cell observes `no card`. -/
theorem C4_fifo_wakeups_witness :
    ((releaseK 1 ⟨0, 0⟩ wQueueBoard).pendingResumes = [("bob", ⟨0, 0⟩)] ∧
      waitersAt (releaseK 1 ⟨0, 0⟩ wQueueBoard) ⟨0, 0⟩ = ["carol"]) ∧
    ((relinquishControl true ⟨0, 0⟩ wQueueBoard).pendingResumes
        = [("bob", ⟨0, 0⟩), ("carol", ⟨0, 0⟩)] ∧
      waitersAt (relinquishControl true ⟨0, 0⟩ wQueueBoard) ⟨0, 0⟩ = []) ∧
    (resumeFlipFn "bob" 0 0
        (modifyCell wBoard ⟨0, 0⟩ (fun c => { c with value := none, faceUp := false }))).outcome
      = .err (.cardGone 0 0) := by
  have h := C4_fifo_wakeups wQueueBoard ⟨0, 0⟩ ["bob", "carol"] 1
    (by decide) (by decide) (by decide)
  refine ⟨⟨?_, ?_⟩, ⟨?_, ?_⟩, ?_⟩
  · rw [h.1.1]; decide
  · rw [h.1.2]; decide
  · rw [h.2.1.1]; decide
  · exact h.2.1.2
  · exact (h.2.2 "bob"
      (modifyCell wBoard ⟨0, 0⟩ (fun c => { c with value := none, faceUp := false }))
      (by decide)).1

/-- C6: `map(f)` collects the distinct card values present on the board —
`collectValues` is exactly the list of arguments `f` is invoked on, and it
has no duplicates (one invocation per distinct value) and contains
precisely the values present.  The grid is then rewritten pointwise: an
empty cell is untouched, every cell whose value was `v` receives the
single result `f v`, and `faceUp` and `controlledBy` are preserved (the
cell equals `mapCellSpec f` of the old cell); in particular no card is
removed, values become `Option.map f` of the old values, the player,
waiter and pending-resume state is untouched, and any two cells with
equal values before the call have equal values after it, so matching
pairs remain matching pairs. -/
theorem C6_map_once_per_distinct_value_preserves_pairs
    (f : String → String) (s : Board) :
    (collectValues s).Nodup ∧
    (∀ v, v ∈ collectValues s ↔ v ∈ gridValues s) ∧
    (∀ row col, cellAt (mapFn f s).2.1 row col
        = (cellAt s row col).map (mapCellSpec f)) ∧
    (∀ row col, valueAt (mapFn f s).2.1 row col = (valueAt s row col).map f) ∧
    ((mapFn f s).2.1.players = s.players ∧ (mapFn f s).2.1.waiters = s.waiters ∧
      (mapFn f s).2.1.pendingResumes = s.pendingResumes) ∧
    (∀ r1 c1 r2 c2, valueAt s r1 c1 = valueAt s r2 c2 →
        valueAt (mapFn f s).2.1 r1 c1 = valueAt (mapFn f s).2.1 r2 c2) := by
  refine ⟨?_, ?_, ?_, ?_, ?_, ?_⟩
  · rw [collectValues_eq_foldl]
    exact dedupFold_nodup (gridValues s) [] List.nodup_nil
  · intro v
    rw [collectValues_eq_foldl]
    rw [dedupFold_mem]
    simp
  · exact mapFn_cellAt f s
  · exact mapFn_valueAt f s
  · obtain ⟨_, h2, h3, h4, _⟩ := mapFn_board_fields f s
    exact ⟨h2, h3, h4⟩
  · intro r1 c1 r2 c2 h
    rw [mapFn_valueAt, mapFn_valueAt, h]

/-- Witness: on the 2×2 board `A B / A C`, cells (0,0) and (1,0) hold
equal values before `map`, and the theorem yields that they still hold
equal values afterwards. -/
theorem C6_map_once_per_distinct_value_preserves_pairs_witness :
    valueAt (mapFn wTransform wBoard).2.1 0 0
      = valueAt (mapFn wTransform wBoard).2.1 1 0 :=
  (C6_map_once_per_distinct_value_preserves_pairs wTransform wBoard).2.2.2.2.2
    0 0 1 0 (by decide)

/-- C8: `look(playerId)` is a pure function of the state (it neither
suspends — it is total — nor mutates anything: the state is only read).
Its output equals the specification rendering `lookSpec`: the header line
`<R>x<C>` followed by one line per cell in row-major order (each line
terminated by a newline), and when the grid has its declared `R×C` shape
there are exactly `R·C` cell lines.  Each cell's line is `none` when the
cell is empty, `down` when it is face-down, `my <symbol>` when it is
face-up and controlled by the viewer, and `up <symbol>` when it is
face-up and controlled by someone else or uncontrolled. -/
theorem C8_look_snapshot_format (pid : String) (s : Board)
    (h1 : s.grid.length = s.rows) (h2 : ∀ row ∈ s.grid, row.length = s.cols) :
    look pid s = lookSpec pid s ∧
    ((s.grid.flatten).map (fun c => lookSpecLine pid c)).length = s.rows * s.cols ∧
    (∀ c : Cell, c.value = none → lookSpecLine pid c = "none") ∧
    (∀ (c : Cell) (v : String), c.value = some v → c.faceUp = false →
        lookSpecLine pid c = "down") ∧
    (∀ (c : Cell) (v : String), c.value = some v → c.faceUp = true →
        c.controlledBy = some pid → lookSpecLine pid c = "my " ++ v) ∧
    (∀ (c : Cell) (v : String), c.value = some v → c.faceUp = true →
        c.controlledBy ≠ some pid → lookSpecLine pid c = "up " ++ v) := by
  refine ⟨look_eq_lookSpec pid s, ?_, ?_, ?_, ?_, ?_⟩
  · rw [List.length_map, flatten_length_uniform s.cols s.grid h2, h1]
  · intro c hv; simp [lookSpecLine, hv]
  · intro c v hv hf; simp [lookSpecLine, hv, hf]
  · intro c v hv hf hc; simp [lookSpecLine, hv, hf, hc]
  · intro c v hv hf hc; simp [lookSpecLine, hv, hf, hc]

/-- Witness: the snapshot of the fresh 2×2 board matches the
specification rendering. -/
theorem C8_look_snapshot_format_witness :
    look "alice" wBoard = lookSpec "alice" wBoard :=
  (C8_look_snapshot_format "alice" wBoard (by decide) (by decide)).1

/-- C10: `getCell(row, col)` is a total function (it never throws, for any
integer arguments including negative and too-large ones), it returns
`null` exactly when the position is out of bounds, and for an in-bounds
position it returns a record equal to the stored cell (a fresh copy, the
board itself being untouched since the function only reads the state). -/
theorem C10_getCell_total_and_faithful (s : Board) (row col : Int)
    (h1 : s.grid.length = s.rows) (h2 : ∀ r ∈ s.grid, r.length = s.cols) :
    ((0 ≤ row ∧ row < (s.rows : Int) ∧ 0 ≤ col ∧ col < (s.cols : Int)) →
      ∃ c, cellAt s row col = some c ∧ getCell s row col = some c) ∧
    (¬(0 ≤ row ∧ row < (s.rows : Int) ∧ 0 ≤ col ∧ col < (s.cols : Int)) →
      getCell s row col = none) := by
  constructor
  · rintro ⟨hr0, hr1, hc0, hc1⟩
    have hrow : row.toNat < s.grid.length := by omega
    have hrowl := List.getElem?_eq_getElem hrow
    have hlen : (s.grid[row.toNat]).length = s.cols :=
      h2 _ (List.getElem_mem hrow)
    have hcol : col.toNat < (s.grid[row.toNat]).length := by omega
    have hcell := List.getElem?_eq_getElem hcol
    have hca : cellAt s row col = some (s.grid[row.toNat])[col.toNat] := by
      unfold cellAt
      rw [if_neg (by omega), hrowl]
      exact hcell
    refine ⟨_, hca, ?_⟩
    unfold getCell
    rw [if_neg (by simp [hca]; omega), hca]
    rfl
  · intro h
    unfold getCell
    rw [if_pos (by omega)]

/-- Witness: on the 2×2 board, an in-bounds request returns the stored
cell and an out-of-bounds one returns `null`. -/
theorem C10_getCell_total_and_faithful_witness :
    (∃ c, cellAt wBoard 0 1 = some c ∧ getCell wBoard 0 1 = some c) ∧
    getCell wBoard 5 (-3) = none :=
  ⟨(C10_getCell_total_and_faithful wBoard 0 1 (by decide) (by decide)).1 (by decide),
   (C10_getCell_total_and_faithful wBoard 5 (-3) (by decide) (by decide)).2 (by decide)⟩

/-- C9 (amended): board construction from the split lines of the (trimmed)
file text succeeds exactly when the first line matches the `<R>x<C>`
header shape (digit run, `x`, digit run), `R` and `C` are nonzero, and
each of the first `R·C` body lines exists and is non-empty — a
whitespace-only line counts as a symbol, body lines beyond the first
`R·C` are ignored, and `R = 0` or `C = 0` is rejected only by the
constructor's `checkRep`.  On success the result is the `R×C` board whose
cells hold the first `R·C` body lines in row-major order, all face-down
and uncontrolled (`buildInitial` of `specGrid`); every failure surfaces
as the single wrapped parse error. -/
theorem C9_parse_succeeds_iff_header_and_first_RC_lines (lines : List String) :
    ((parseLines lines).isSome = true ↔
      ∃ l0 rows cols, lines[0]? = some l0 ∧ parseHeader l0 = some (rows, cols) ∧
        0 < rows ∧ 0 < cols ∧
        ∀ i < rows * cols, ((lines.drop 1)[i]?).getD "" ≠ "") ∧
    (∀ (l0 : String) (rows cols : Nat) (b : Board),
      lines[0]? = some l0 → parseHeader l0 = some (rows, cols) →
      parseLines lines = some b →
      b = buildInitial rows cols (specGrid (lines.drop 1) rows cols)) :=
  ⟨parseLines_isSome_iff lines,
   fun l0 rows cols b h0 hh hb => parseLines_value lines l0 rows cols b h0 hh hb⟩

/-- Witness: parsing the lines `2x1 / A / B` succeeds and produces the
2×1 face-down board holding `A` then `B`. -/
theorem C9_parse_succeeds_iff_header_and_first_RC_lines_witness :
    ∃ b, parseLines wParseLines = some b ∧
      b = buildInitial 2 1 (specGrid (wParseLines.drop 1) 2 1) := by
  have hcond : ∃ l0 rows cols, wParseLines[0]? = some l0 ∧
      parseHeader l0 = some (rows, cols) ∧ 0 < rows ∧ 0 < cols ∧
      ∀ i < rows * cols, ((wParseLines.drop 1)[i]?).getD "" ≠ "" :=
    ⟨"2x1", 2, 1, by decide, by decide, by decide, by decide, by decide⟩
  obtain ⟨b, hb⟩ := Option.isSome_iff_exists.mp
    ((C9_parse_succeeds_iff_header_and_first_RC_lines wParseLines).1.mpr hcond)
  exact ⟨b, hb, (C9_parse_succeeds_iff_header_and_first_RC_lines wParseLines).2
    "2x1" 2 1 b (by decide) (by decide) hb⟩

/-- C7 (amended): `watch` registers a one-shot listener and changes
nothing else — in particular it mutates no cell and fires no listener —
and a resolved listener receives the `look(playerId)` snapshot of the
state current when the notification fires (the snapshot payload lives in
the command layer, modelled from the spec by `watchResolution`).  The
notification discipline of the code is: all pending listeners fire
exactly when a flip (or a resumed suspended flip) completes without
error, when a second-card flip fails with `NoCardHere` or
`CardControlled`, or when `map` completes; every other exit — in
particular a first-card failure, even when the `finishPreviousTurn`
pre-step altered cell state (see the counterexample) — fires nothing. -/
theorem C7_watch_notification_semantics :
    (∀ s : Board, watchFn s = { s with callbacks := s.callbacks + 1 }) ∧
    (∀ (pid : String) (s : Board), watchResolution pid s = look pid s) ∧
    (∀ (f : String → String) (s : Board),
      (mapFn f s).2.2 = if (mapFn f s).1 = .ok then s.callbacks else 0) ∧
    (∀ (pid : String) (row col : Int) (s : Board),
      (flipFn pid row col s).fired =
        if (flipFn pid row col s).outcome = .ok ∨
            ((flipFn pid row col s).path = .second ∧
              ((flipFn pid row col s).outcome = .err (.noCardHere row col) ∨
                (flipFn pid row col s).outcome = .err (.cardControlled row col)))
        then s.callbacks else 0) ∧
    (∀ (pid : String) (row col : Int) (s : Board),
      (resumeFlipFn pid row col s).fired =
        if (resumeFlipFn pid row col s).outcome = .ok then s.callbacks else 0) :=
  ⟨fun _ => rfl, fun _ _ => rfl, mapFn_fired_eq, flipFn_fired_eq, resumeFlip_fired_eq⟩

/-- C9 counterexample: the claim says construction fails when the number
of non-empty body lines differs from `R·C` or when a body line is
whitespace-only.  The input `"1x1\n \nB"` has two non-empty body lines
for a 1×1 board and its first body line is whitespace-only, yet
`parseFromFile` succeeds, producing a 1×1 board whose sole card is the
one-space symbol `" "` (the extra line `B` is simply ignored). -/
theorem C9_counterexample_extra_and_whitespace_lines_accepted :
    claimParseFailsB "1x1\n \nB" = true ∧
    (parseBoardText "1x1\n \nB").isSome = true ∧
    (parseBoardText "1x1\n \nB").map (fun b => b.grid) = some [[mkCell " "]] := by
  refine ⟨?_, ?_, ?_⟩ <;> decide

end MemoryBoard
